import Mathlib

/-!
# Verification of the self-healing execution engine (seandmiller/agentic-ai)

A shallow embedding of the repository's core: the text extractor
(`scripts/tools.py`), the sandboxed repair controller
(`scripts/code_executor.py`), the intent classifiers
(`scripts/intent_interpreter.py`) and the orchestrator (`main.py`).
Language-model calls and the operating-system process boundary are modelled
as oracles (plain functions supplied as parameters); everything on this side
of those boundaries is translated from the Python source.
-/

namespace Agentic

/-! ## Python string primitives

Python string operations used by the source, re-implemented over `List Char`
so that every definition evaluates by kernel reduction. -/

/-- First index `i` such that `needle` is a prefix of `hay.drop i`
    (the index found by Python `str.find` for a substring). -/
def findSubIdx (hay needle : List Char) : Option Nat :=
  (List.range (hay.length + 1)).find? (fun i => needle.isPrefixOf (hay.drop i))

/-- Python `needle in hay` (substring containment). -/
def strContains (hay needle : String) : Bool :=
  (findSubIdx hay.data needle.data).isSome

/-- Python whitespace for `str.strip` and the regex class `\s`
    (ASCII: space, tab, newline, carriage return, form feed, vertical tab). -/
def pyWhite (c : Char) : Bool :=
  c = ' ' || c = '\t' || c = '\n' || c = '\r' || c = '\x0b' || c = '\x0c'

/-- Python `str.strip()`. -/
def pyStrip (s : String) : String :=
  ⟨((s.data.dropWhile pyWhite).reverse.dropWhile pyWhite).reverse⟩

/-- Python `str.lower()` (ASCII range, all characters in scope are ASCII). -/
def pyLower (s : String) : String :=
  ⟨s.data.map Char.toLower⟩

/-- Python `str.startswith`. -/
def pyStartsWith (s pre : String) : Bool :=
  pre.data.isPrefixOf s.data

/-- Python `s.split(sep, 1)`: `none` when `sep` does not occur, otherwise
    the pieces before and after its first occurrence. -/
def pySplit1 (s sep : String) : Option (String × String) :=
  match findSubIdx s.data sep.data with
  | none => none
  | some i => some (⟨s.data.take i⟩, ⟨s.data.drop (i + sep.data.length)⟩)

/-- Python `s.split(sep)` for a non-empty separator (auxiliary, fuelled). -/
def pySplitAux (sep : List Char) : Nat → List Char → List (List Char)
  | 0, cs => [cs]
  | fuel + 1, cs =>
    match findSubIdx cs sep with
    | none => [cs]
    | some i => cs.take i :: pySplitAux sep fuel (cs.drop (i + sep.length))

/-- Python `s.split(sep)` (non-empty separator; the source only splits on
    `"\n"`). -/
def pySplitOn (s sep : String) : List String :=
  (pySplitAux sep.data (s.data.length + 1) s.data).map (fun cs => ⟨cs⟩)

/-- Python `s.replace(pat, rep)` for a non-empty pattern, replacing every
    non-overlapping occurrence left to right (auxiliary, fuelled). -/
def pyReplaceAux (pat rep : List Char) : Nat → List Char → List Char
  | 0, cs => cs
  | fuel + 1, cs =>
    match findSubIdx cs pat with
    | none => cs
    | some i =>
      cs.take i ++ rep ++ pyReplaceAux pat rep fuel (cs.drop (i + pat.length))

/-- Python `s.replace(pat, rep)` (the source only replaces the non-empty
    marker `"EXECUTION_ERROR: "`; an empty pattern is returned unchanged). -/
def pyReplace (s pat rep : String) : String :=
  if pat.data = [] then s
  else ⟨pyReplaceAux pat.data rep.data (s.data.length + 1) s.data⟩

/-- `Option.orElse` written out, to keep evaluation order explicit. -/
def orElseO {α : Type} (a : Option α) (b : Unit → Option α) : Option α :=
  match a with
  | some v => some v
  | none => b ()

/-! ## JSON values and `json.loads`

`tools.py` recovers structure with Python's `json.loads`, which is strict:
no trailing commas, double-quoted strings only, no bare keys.  The parser
below implements that grammar for the values exercised by this repository
(numeric literals are modelled as integers; no claim input contains a
number).  All parsing functions are fuelled; the fuel given by `jsonLoads`
exceeds any possible recursion depth, which is linear in the input. -/

inductive JVal where
  | jnull : JVal
  | jbool : Bool → JVal
  | jnum : Int → JVal
  | jstr : String → JVal
  | jarr : List JVal → JVal
  | jobj : List (String × JVal) → JVal

/-- JSON whitespace (`json.loads` accepts exactly these between tokens). -/
def jsonWs (c : Char) : Bool :=
  c = ' ' || c = '\t' || c = '\n' || c = '\r'

def skipWs : List Char → List Char
  | [] => []
  | c :: cs => if jsonWs c then skipWs cs else c :: cs

def hexVal (c : Char) : Option Nat :=
  if '0' ≤ c ∧ c ≤ '9' then some (c.toNat - '0'.toNat)
  else if 'a' ≤ c ∧ c ≤ 'f' then some (c.toNat - 'a'.toNat + 10)
  else if 'A' ≤ c ∧ c ≤ 'F' then some (c.toNat - 'A'.toNat + 10)
  else none

/-- Body of a JSON string, after the opening quote: returns the decoded
    string and the remainder after the closing quote. -/
def parseStringBody : Nat → List Char → Option (String × List Char)
  | 0, _ => none
  | _ + 1, [] => none
  | fuel + 1, c :: cs =>
    if c = '"' then some ("", cs)
    else if c = '\\' then
      match cs with
      | [] => none
      | e :: cs1 =>
        let cont := fun (ch : Char) (rest : List Char) =>
          match parseStringBody fuel rest with
          | some (s, r) => some (⟨ch :: s.data⟩, r)
          | none => none
        if e = '"' then cont '"' cs1
        else if e = '\\' then cont '\\' cs1
        else if e = '/' then cont '/' cs1
        else if e = 'b' then cont (Char.ofNat 8) cs1
        else if e = 'f' then cont (Char.ofNat 12) cs1
        else if e = 'n' then cont '\n' cs1
        else if e = 'r' then cont '\r' cs1
        else if e = 't' then cont '\t' cs1
        else if e = 'u' then
          match cs1 with
          | a :: b :: c2 :: d :: rest =>
            match hexVal a, hexVal b, hexVal c2, hexVal d with
            | some x, some y, some z, some w =>
              cont (Char.ofNat (((x * 16 + y) * 16 + z) * 16 + w)) rest
            | _, _, _, _ => none
          | _ => none
        else none
    else if c.toNat < 32 then none
    else
      match parseStringBody fuel cs with
      | some (s, r) => some (⟨c :: s.data⟩, r)
      | none => none

def isDigitC (c : Char) : Bool := '0' ≤ c && c ≤ '9'

def digitsVal (ds : List Char) : Nat :=
  ds.foldl (fun acc c => acc * 10 + (c.toNat - '0'.toNat)) 0

/-- JSON number (integer form: optional minus, digits, no leading zeros;
    fractional and exponent forms are outside the grammar subset in use). -/
def parseNumber (cs : List Char) : Option (JVal × List Char) :=
  let (neg, cs1) :=
    match cs with
    | c :: rest => if c = '-' then (true, rest) else (false, cs)
    | [] => (false, cs)
  let ds := cs1.takeWhile isDigitC
  let rest := cs1.dropWhile isDigitC
  if ds = [] then none
  else if ds.length > 1 ∧ ds.headI = '0' then none
  else
    match rest with
    | c :: _ =>
      if c = '.' || c = 'e' || c = 'E' then none
      else some (.jnum (if neg then -(digitsVal ds : Int) else (digitsVal ds : Int)), rest)
    | [] => some (.jnum (if neg then -(digitsVal ds : Int) else (digitsVal ds : Int)), rest)

mutual

/-- One JSON value, leading whitespace allowed. -/
def parseValue : Nat → List Char → Option (JVal × List Char)
  | 0, _ => none
  | fuel + 1, cs =>
    match skipWs cs with
    | [] => none
    | c :: rest =>
      if c = '"' then
        match parseStringBody fuel rest with
        | some (s, r) => some (.jstr s, r)
        | none => none
      else if c = Char.ofNat 123 then parseObjBody fuel (skipWs rest)
      else if c = '[' then parseArrBody fuel (skipWs rest)
      else if ['t', 'r', 'u', 'e'].isPrefixOf (c :: rest) then
        some (.jbool true, (c :: rest).drop 4)
      else if ['f', 'a', 'l', 's', 'e'].isPrefixOf (c :: rest) then
        some (.jbool false, (c :: rest).drop 5)
      else if ['n', 'u', 'l', 'l'].isPrefixOf (c :: rest) then
        some (.jnull, (c :: rest).drop 4)
      else parseNumber (c :: rest)

/-- Object members, called just after the opening brace (whitespace already
    skipped).  Strict: members separated by single commas, no trailing comma. -/
def parseObjBody : Nat → List Char → Option (JVal × List Char)
  | 0, _ => none
  | fuel + 1, cs =>
    match cs with
    | [] => none
    | c :: rest =>
      if c = Char.ofNat 125 then some (.jobj [], rest)
      else
        match parsePairs fuel (c :: rest) with
        | some (kvs, r) => some (.jobj kvs, r)
        | none => none

/-- One or more `"key": value` pairs followed by the closing brace. -/
def parsePairs : Nat → List Char → Option (List (String × JVal) × List Char)
  | 0, _ => none
  | fuel + 1, cs =>
    match skipWs cs with
    | '"' :: rest =>
      match parseStringBody fuel rest with
      | some (k, r1) =>
        match skipWs r1 with
        | ':' :: r2 =>
          match parseValue fuel r2 with
          | some (v, r3) =>
            match skipWs r3 with
            | ',' :: r4 =>
              match parsePairs fuel r4 with
              | some (kvs, r5) => some ((k, v) :: kvs, r5)
              | none => none
            | c :: r4 =>
              if c = Char.ofNat 125 then some ([(k, v)], r4) else none
            | [] => none
          | none => none
        | _ => none
      | none => none
    | _ => none

/-- Array elements, called just after the opening bracket (whitespace already
    skipped).  Strict: single commas, no trailing comma. -/
def parseArrBody : Nat → List Char → Option (JVal × List Char)
  | 0, _ => none
  | fuel + 1, cs =>
    match cs with
    | [] => none
    | c :: rest =>
      if c = ']' then some (.jarr [], rest)
      else
        match parseElems fuel (c :: rest) with
        | some (xs, r) => some (.jarr xs, r)
        | none => none

/-- One or more array elements followed by the closing bracket. -/
def parseElems : Nat → List Char → Option (List JVal × List Char)
  | 0, _ => none
  | fuel + 1, cs =>
    match parseValue fuel cs with
    | some (v, r1) =>
      match skipWs r1 with
      | ',' :: r2 =>
        match parseElems fuel r2 with
        | some (xs, r3) => some (v :: xs, r3)
        | none => none
      | ']' :: r2 => some ([v], r2)
      | _ => none
    | none => none

end

/-- Python `json.loads`: one value, then nothing but whitespace
    (anything further raises `Extra data`). -/
def jsonLoads (s : String) : Option JVal :=
  match parseValue ((s.data.length + 1) * 4) s.data with
  | some (v, rest) => if skipWs rest = [] then some v else none
  | none => none

/-! ## Text Extractor — `JSONExtractor` (`scripts/tools.py`)

`_extract_from_code_blocks` applies `re.findall` with the patterns
`r'```json\s*(.*?)\s*```'`, `r'```\s*(.*?)\s*```'` and `r'`(.*?)`'`
(all with `re.DOTALL`).  Each pattern has the shape
`OPENER \s* ( .*? ) \s* CLOSER` (the third without the `\s*`s), so the
match semantics are implemented directly: leftmost starting position,
greedy `\s*` before the group, lazy group (shortest capture first), greedy
`\s*` before the closer, and `findall` resuming after each match end. -/

/-- Length of the maximal leading run of regex-`\s` characters. -/
def wsRunLen (cs : List Char) : Nat :=
  (cs.takeWhile pyWhite).length

/-- Greedy tail `\s*CLOSER` at the current position: the largest `k` within
    the leading whitespace run such that `closer` starts at offset `k`. -/
def closeAt (closer : List Char) (cs : List Char) : Option Nat :=
  (List.range (wsRunLen cs + 1)).reverse.find?
    (fun k => closer.isPrefixOf (cs.drop k))

/-- Lazy group then greedy `\s*CLOSER`: the shortest capture after which the
    tail matches; returns the capture and the remainder after the closer. -/
def lazyCapture (closer : List Char) (cs : List Char) :
    Option (List Char × List Char) :=
  (List.range (cs.length + 1)).findSome? (fun j =>
    match closeAt closer (cs.drop j) with
    | some k => some (cs.take j, cs.drop (j + k + closer.length))
    | none => none)

/-- Leftmost full match of `OPENER \s* (.*?) \s* CLOSER`: tries each
    occurrence of the opener in order until the tail also matches. -/
def findMatchStep (opener closer : List Char) (useWs : Bool) :
    Nat → List Char → Option (List Char × List Char)
  | 0, _ => none
  | fuel + 1, cs =>
    match findSubIdx cs opener with
    | none => none
    | some i =>
      let after := cs.drop (i + opener.length)
      let after2 := if useWs then after.drop (wsRunLen after) else after
      match lazyCapture closer after2 with
      | some (cap, rest) => some (cap, rest)
      | none => findMatchStep opener closer useWs fuel (cs.drop (i + 1))

/-- `re.findall` for the pattern shape above: non-overlapping matches,
    scanning resumes after each match end; the group captures are returned. -/
def findAllMatches (opener closer : List Char) (useWs : Bool) :
    Nat → List Char → List String
  | 0, _ => []
  | fuel + 1, cs =>
    match findMatchStep opener closer useWs (cs.length + 1) cs with
    | none => []
    | some (cap, rest) => (⟨cap⟩ : String) :: findAllMatches opener closer useWs fuel rest

/-- Inner loop of `_extract_from_code_blocks`: strip each capture, keep it
    only if non-empty and starting with a brace or bracket, and return the
    first one `json.loads` accepts. -/
def tryMatches (ms : List String) : Option JVal :=
  ms.findSome? (fun m =>
    let cleaned := pyStrip m
    if cleaned ≠ "" && (pyStartsWith cleaned "\x7b" || pyStartsWith cleaned "[")
    then jsonLoads cleaned
    else none)

/-- `JSONExtractor._extract_from_code_blocks` (tools.py lines 38-56). -/
def extractFromCodeBlocks (text : String) : Option JVal :=
  let cs := text.data
  orElseO (tryMatches (findAllMatches "```json".data "```".data true (cs.length + 1) cs)) fun _ =>
  orElseO (tryMatches (findAllMatches "```".data "```".data true (cs.length + 1) cs)) fun _ =>
  tryMatches (findAllMatches [Char.ofNat 96] [Char.ofNat 96] false (cs.length + 1) cs)

/-- The bracket-counting loop of `_extract_from_brackets`: index of the
    character that balances the pair, counting from the start character.
    Mirrors the Python loop: increment on the opener, decrement on the
    closer, stop the first time the count returns to zero. -/
def scanBalanced (openC closeC : Char) : List Char → Nat → Nat → Option Nat
  | [], _, _ => none
  | c :: cs, i, k =>
    let k1 := if c = openC then k + 1 else if c = closeC then k - 1 else k
    if c = closeC ∧ k1 = 0 then some i else scanBalanced openC closeC cs (i + 1) k1

/-- One `(start_char, end_char)` attempt of `_extract_from_brackets`. -/
def tryBracketPair (openC closeC : Char) (text : List Char) : Option JVal :=
  match findSubIdx text [openC] with
  | none => none
  | some s =>
    match scanBalanced openC closeC (text.drop s) 0 0 with
    | some endOff => jsonLoads ⟨(text.drop s).take (endOff + 1)⟩
    | none => none

/-- `JSONExtractor._extract_from_brackets` (tools.py lines 58-86): the
    brace pair is tried before the bracket pair, exactly as the Python
    loop iterates `[('{', '}'), ('[', ']')]`. -/
def extractFromBrackets (text : String) : Option JVal :=
  orElseO (tryBracketPair (Char.ofNat 123) (Char.ofNat 125) text.data) fun _ =>
  tryBracketPair '[' ']' text.data

/-! `_extract_and_fix_json` (tools.py lines 88-130) applies regex rewrites
before a final `json.loads`.  The rewrites are modelled by direct string
transformations capturing their net effect on texts whose JSON payload is
surrounded by prose; this is a deliberate approximation, not an exact
regex semantics, and it is known to diverge from the source on some
inputs: the source applies its first prefix pattern before checking
`startswith`, so it can also rewrite text that already starts with a
brace, and its MULTILINE suffix patterns strip at every line end rather
than only the last.  The divergence is immaterial to every theorem in
this file: the strategy only runs when both earlier strategies fail,
which — in the model and in the source alike — happens for none of the
inputs any theorem evaluates. -/

/-- Word character for the regex class `\w` (ASCII). -/
def wordChar (c : Char) : Bool :=
  ('a' ≤ c && c ≤ 'z') || ('A' ≤ c && c ≤ 'Z') || ('0' ≤ c && c ≤ '9') || c = '_'

/-- Net effect of the prefix-removal loop (patterns ending in
    `r'^[^{\[]*'`): drop everything before the first brace or bracket. -/
def fixDropPrefix (cs : List Char) : List Char :=
  cs.dropWhile (fun c => ¬ (c = Char.ofNat 123 ∨ c = '['))

/-- Net effect of the suffix-removal patterns (`r'\s*```.*$'`,
    `r'\s*[^}\]]*$'`): drop everything after the last closing brace or
    bracket. -/
def fixDropSuffix (cs : List Char) : List Char :=
  (cs.reverse.dropWhile (fun c => ¬ (c = Char.ofNat 125 ∨ c = ']'))).reverse

/-- The rewrites `r',\s*}' -> '}'` and `r',\s*]' -> ']'`: remove a comma
    (and intervening whitespace) directly before a closer. -/
def fixTrailingCommas : Nat → List Char → List Char
  | 0, cs => cs
  | fuel + 1, cs =>
    match cs with
    | [] => []
    | ',' :: rest =>
      let rest1 := rest.drop (wsRunLen rest)
      match rest1 with
      | c :: _ =>
        if c = Char.ofNat 125 ∨ c = ']' then fixTrailingCommas fuel rest1
        else ',' :: fixTrailingCommas fuel rest
      | [] => ',' :: fixTrailingCommas fuel rest
    | c :: rest => c :: fixTrailingCommas fuel rest

/-- The rewrite `r'(\w+):' -> r'"\1":'`: wrap a maximal word run directly
    followed by a colon in double quotes. -/
def fixQuoteKeys : Nat → List Char → List Char
  | 0, cs => cs
  | fuel + 1, cs =>
    match cs with
    | [] => []
    | c :: rest =>
      if wordChar c then
        let run := c :: rest.takeWhile wordChar
        let rest1 := rest.dropWhile wordChar
        match rest1 with
        | ':' :: rest2 => '"' :: run ++ '"' :: ':' :: fixQuoteKeys fuel rest2
        | _ => run ++ fixQuoteKeys fuel rest1
      else c :: fixQuoteKeys fuel rest

/-- The rewrites `r"'([^']*)':" -> r'"\1":'` and `r":\s*'([^']*)'" ->
    r': "\1"'`: convert single-quoted keys and values to double quotes. -/
def fixSingleQuotes : Nat → List Char → List Char
  | 0, cs => cs
  | fuel + 1, cs =>
    match cs with
    | [] => []
    | c :: rest =>
      if c = Char.ofNat 39 then
        let inner := rest.takeWhile (fun ch => ¬ ch = Char.ofNat 39)
        match rest.dropWhile (fun ch => ¬ ch = Char.ofNat 39) with
        | _ :: rest2 => '"' :: inner ++ '"' :: fixSingleQuotes fuel rest2
        | [] => c :: fixSingleQuotes fuel rest
      else c :: fixSingleQuotes fuel rest

/-- `JSONExtractor._extract_and_fix_json` (tools.py lines 88-130). -/
def extractAndFixJson (text : String) : Option JVal :=
  let cs := (pyStrip text).data
  let cs := fixDropPrefix cs
  let cs := fixDropSuffix cs
  let cs := fixTrailingCommas (cs.length + 1) cs
  let cs := fixQuoteKeys (cs.length + 1) cs
  let cs := fixSingleQuotes (cs.length + 1) cs
  jsonLoads ⟨cs⟩

/-- `JSONExtractor._parse_direct` (tools.py lines 132-138). -/
def parseDirect (text : String) : Option JVal :=
  jsonLoads (pyStrip text)

/-- `JSONExtractor.extract_json` (tools.py lines 8-36): empty or
    whitespace-only input yields `None`; otherwise the four strategies are
    tried in order and the first non-`None` result wins (an exception inside
    a strategy is treated as `None`, which the total functions above encode
    directly). -/
def extract_json (rawText : String) : Option JVal :=
  if pyStrip rawText = "" then none
  else
    orElseO (extractFromCodeBlocks rawText) fun _ =>
    orElseO (extractFromBrackets rawText) fun _ =>
    orElseO (extractAndFixJson rawText) fun _ =>
    parseDirect rawText

/-- The fenced extraction input of the round-trip property:
    ` ```json\n[{"description":"a","goal":"b"}]\n``` `. -/
def c5Fenced : String := "```json\n[\x7b\"description\":\"a\",\"goal\":\"b\"\x7d]\n```"

/-- The same array text without the fences. -/
def c5Plain : String := "[\x7b\"description\":\"a\",\"goal\":\"b\"\x7d]"

/-- The same array text with a trailing comma before the closing bracket. -/
def c5Trailing : String := "[\x7b\"description\":\"a\",\"goal\":\"b\"\x7d,]"

/-! ## Data model and prompt assembly (`main.py`) -/

/-- `AgenticTask` (main.py lines 10-14). -/
structure AgenticTask where
  description : String
  goal : String
  contextVariables : List String
deriving Repr

/-- `TaskResult` (main.py lines 16-21). -/
structure TaskResultE where
  task : AgenticTask
  success : Bool
  code : String
  error : String
deriving Repr

/-- `AgenticExecutor._build_task_prompt` (main.py lines 314-326): the
    prompt for one sequential task.  It embeds only the task goal; neither
    `task.context_variables` nor the context store appears in it. -/
def buildTaskPrompt (t : AgenticTask) : String :=
  "# Step Goal: " ++ t.goal ++ "\n\n# Instructions:\n# - Focus ONLY on this specific step\n# - This code will be merged with other tasks later\n# - Write clean, focused Python code for this specific goal\n# - Don\x27t worry about execution - just generate good code\n# - Include necessary imports for this step\n\n# Your code for this step:"

/-- The `context_code` accumulation in `_create_unified_prompt` (main.py
    lines 230-237).  The context store only ever holds strings (see
    `extractContext`), so the `isinstance(value, str)` branch is the one
    taken: each variable is inlined as `var = """value"""`. -/
def contextCodeAux (acc : String) : List (String × String) → String
  | [] => acc
  | (n, v) :: rest =>
    contextCodeAux (acc ++ n ++ " = \"\"\"" ++ v ++ "\"\"\"\n") rest

/-- `AgenticExecutor._create_unified_prompt` (main.py lines 227-251). -/
def createUnifiedPrompt (ctx : List (String × String)) (userRequest : String) : String :=
  contextCodeAux "" ctx ++ "\n# Complete Request: " ++ userRequest ++ "\n\n# Instructions:\n# - This is a unified task - handle the COMPLETE request in one comprehensive solution\n# - Write a single, cohesive program that accomplishes everything requested\n# - Think through all requirements and implement them together\n# - Include all necessary imports at the top\n# - Store any important final results as variables and print them as:\n#   print(f\"RESULT: variable_name = \x7bvariable_name\x7d\")\n# - Write clean, working Python code that fully satisfies the request\n\n# Your comprehensive solution:"

/-! ## Context Store (`AgenticExecutor._extract_context`, main.py 328-339)

The store is a Python dict (insertion-ordered, overwrite in place). -/

/-- Insertion-ordered map update with Python dict semantics. -/
def dictInsert (d : List (String × String)) (k v : String) : List (String × String) :=
  if d.any (fun p => p.1 = k) then
    d.map (fun p => if p.1 = k then (k, v) else p)
  else d ++ [(k, v)]

/-- One line of `_extract_context`: a line containing `RESULT:` and `=`
    updates the store; the bare `except: pass` covers the case where the
    `=` sits before `RESULT:` (the index error on `split('=', 1)[1]`). -/
def extractContextLine (ctx : List (String × String)) (line : String) : List (String × String) :=
  if strContains line "RESULT:" && strContains line "=" then
    match pySplit1 line "RESULT:" with
    | some (_, afterMarker) =>
      let varPart := pyStrip afterMarker
      match pySplit1 varPart "=" with
      | some (rawName, rawValue) => dictInsert ctx (pyStrip rawName) (pyStrip rawValue)
      | none => ctx
    | none => ctx
  else ctx

/-- `AgenticExecutor._extract_context` (main.py lines 328-339). -/
def extractContext (ctx : List (String × String)) (output : String) : List (String × String) :=
  (pySplitOn output "\n").foldl extractContextLine ctx

/-! ## Repair Controller (`scripts/code_executor.py`)

The operating-system run of one snippet (`_execute_code`) and the
model-produced revision (`_generate_recursive_fix`, which builds a prompt
from the failing code, the error text and the recent fix history, calls the
model, and pipes the reply through `_clean_code`) are the oracle
boundaries: `execO depth code` is the result of the run at recursion depth
`depth`, and `fixO code error depth history` is the cleaned revision text
(`""` models both an unusable reply and an exception in the call, exactly
as in the source). -/

/-- The dict returned by `_execute_code` (success, stdout, stderr/derived
    error, timeout flag). -/
structure ExecResultPy where
  success : Bool
  output : String
  error : String
  timeout : Bool
deriving Repr

/-- One entry of `self.fix_history` (`_record_fix_attempt`). -/
structure FixAttempt where
  depth : Nat
  originalCode : String
  fixedCode : String
  error : String
deriving Repr

/-- The session state of `CodeExecutor`: `self.fix_history` and
    `self.code_hashes`.  A content hash is modelled by the stripped code
    text itself (`hashlib.md5(code.strip()).hexdigest()` is injective on
    the texts in scope up to collisions, which are out of scope). -/
structure ExecState where
  fixHistory : List FixAttempt
  codeHashes : List String
deriving Repr

/-- The result dict of `_execute_with_recursive_fixes` after
    `result.update({'code': code, 'fix_attempts': depth})`. -/
structure RunResult where
  success : Bool
  output : String
  error : String
  timeout : Bool
  code : String
  fixAttempts : Nat
deriving Repr

/-- `CodeExecutor._is_duplicate_fix` (code_executor.py lines 111-116):
    membership test on the stripped text; a fresh hash is added to the set. -/
def isDuplicateFix (newCode : String) (hashes : List String) : Bool × List String :=
  let h := pyStrip newCode
  if hashes.contains h then (true, hashes) else (false, hashes ++ [h])

/-- `CodeExecutor._is_valid_fix` (code_executor.py lines 278-287). -/
def isValidFix (fixedCode originalCode : String) (hashes : List String) :
    Bool × List String :=
  if fixedCode = "" ∨ fixedCode = originalCode then (false, hashes)
  else
    match isDuplicateFix fixedCode hashes with
    | (true, hs) => (false, hs)
    | (false, hs) => (true, hs)

/-- `CodeExecutor._record_fix_attempt` (code_executor.py lines 293-302):
    append, then evict the oldest entry beyond ten. -/
def recordFixAttempt (st : ExecState) (depth : Nat) (orig fixed err : String) : ExecState :=
  let h := st.fixHistory ++ [⟨depth, orig, fixed, err⟩]
  { st with fixHistory := if h.length > 10 then h.drop 1 else h }

/-- `CodeExecutor._handle_max_depth_reached` (code_executor.py lines
    270-276): annotate the error only when the depth bound was hit (the
    timeout branch only prints). -/
def handleMaxDepthReached (r : RunResult) (depth maxFixDepth : Nat) : RunResult :=
  if depth ≥ maxFixDepth then
    { r with error := r.error ++ "\n\nReached maximum recursive fix depth (" ++ toString maxFixDepth ++ ")" }
  else r

/-- `CodeExecutor._execute_with_recursive_fixes` (code_executor.py lines
    31-57), with an explicit fuel so the definition computes by structural
    recursion.  Under the wrapper `executeWithRecursiveFixes`, `fuel` is
    always `maxFixDepth - depth`, so `fuel = 0` is exactly `depth ≥
    self.max_fix_depth`: the source guard `_should_attempt_fix` (`depth <
    max_fix_depth and not timeout`) is decomposed into the timeout test
    followed by the fuel test, both failures taking the same
    `_handle_max_depth_reached` branch as in the source.  Besides the
    result and the final session state, the
    trace of `(depth, code)` pairs passed to `_execute_code` is returned,
    so that theorems can speak about which code actually ran. -/
def executeWithRecursiveFixesGo (execO : Nat → String → ExecResultPy)
    (fixO : String → String → Nat → List FixAttempt → String) (maxFixDepth : Nat) :
    Nat → String → Nat → ExecState → RunResult × ExecState × List (Nat × String)
  | fuel, code, depth, st =>
    let r := execO depth code
    let res : RunResult :=
      { success := r.success, output := r.output, error := r.error,
        timeout := r.timeout, code := code, fixAttempts := depth }
    if r.success then (res, st, [(depth, code)])
    else if r.timeout then (handleMaxDepthReached res depth maxFixDepth, st, [(depth, code)])
    else
      match fuel with
      | 0 => (handleMaxDepthReached res depth maxFixDepth, st, [(depth, code)])
      | fuel' + 1 =>
        let fixedCode := fixO code r.error depth st.fixHistory
        match isValidFix fixedCode code st.codeHashes with
        | (false, hs) =>
          ({ res with error := res.error ++ "\n\nRecursive fixing stopped at depth " ++ toString depth ++ " - no improvement found" },
           { st with codeHashes := hs }, [(depth, code)])
        | (true, hs) =>
          let st1 := recordFixAttempt { st with codeHashes := hs } depth code fixedCode r.error
          let out := executeWithRecursiveFixesGo execO fixO maxFixDepth fuel' fixedCode (depth + 1) st1
          (out.1, out.2.1, (depth, code) :: out.2.2)

/-- Entry point of the recursion, at the source signature: `fuel` is tied
    to `maxFixDepth - depth`. -/
def executeWithRecursiveFixes (execO : Nat → String → ExecResultPy)
    (fixO : String → String → Nat → List FixAttempt → String)
    (maxFixDepth : Nat) (code : String) (depth : Nat) (st : ExecState) :
    RunResult × ExecState × List (Nat × String) :=
  executeWithRecursiveFixesGo execO fixO maxFixDepth (maxFixDepth - depth) code depth st

/-- `CodeExecutor.generate_and_execute` (code_executor.py lines 18-29):
    reset the session state, generate initial code (`genO` is
    `_generate_code`: prompt template, model call and `_clean_code`, with
    `""` on failure), and either report the generation failure
    (`_create_error_result`, which carries `fix_attempts = 0` and no
    timeout key) or enter the repair recursion at depth 0. -/
def generateAndExecute (genO : String → String) (execO : Nat → String → ExecResultPy)
    (fixO : String → String → Nat → List FixAttempt → String)
    (maxFixDepth : Nat) (userRequest : String) (_st : ExecState) :
    RunResult × ExecState × List (Nat × String) :=
  let st0 : ExecState := ⟨[], []⟩
  let initialCode := genO userRequest
  if initialCode = "" then
    ({ success := false, output := "", error := "Failed to generate initial code",
       timeout := false, code := "", fixAttempts := 0 }, st0, [])
  else executeWithRecursiveFixes execO fixO maxFixDepth initialCode 0 st0

/-! ## Sandbox Executor file lifecycle (`CodeExecutor._execute_code`,
code_executor.py lines 188-243, and `_safe_cleanup`, lines 304-309)

For the temporary-artifact claim the run is modelled with an explicit file
system (a list of `(name, content)` entries) and two verdicts supplied by
the operating system: what the subprocess run did (normal completion with
an exit code and captured streams, `subprocess.TimeoutExpired`, or any
other exception while spawning or running the subprocess), and whether the
`os.unlink` call of the `finally` cleanup succeeds or raises `OSError` —
an `OSError` is swallowed by `_safe_cleanup`'s `except OSError: pass` and
leaves the file in place. -/

/-- What the subprocess run did, at the OS boundary. -/
inductive RunOutcome where
  | completed (exitCode : Int) (stdout stderr : String)
  | timedOut
  | raised (msg : String)

/-- `CodeExecutor._indent_code` (code_executor.py lines 245-246). -/
def indentCode (code : String) (spaces : Nat) : String :=
  String.intercalate "\n"
    ((pySplitOn code "\n").map (fun l => (⟨List.replicate spaces ' '⟩ : String) ++ l))

/-- The `safe_code` wrapper written to the temporary file (code_executor.py
    lines 189-197). -/
def safeWrap (code : String) : String :=
  "import sys\nimport os\n\ntry:\n" ++ indentCode code 4 ++ "\nexcept Exception as e:\n    print(f\"EXECUTION_ERROR: \x7btype(e).__name__\x7d: \x7be\x7d\")\n    sys.exit(1)\n"

/-- `CodeExecutor._safe_cleanup` (code_executor.py lines 304-309):
    `os.path.exists`, then `os.unlink` inside `try ... except OSError:
    pass`.  `unlinkOk` is the operating system's verdict on the unlink
    call: `true` when it succeeds and removes the file, `false` when it
    raises `OSError`, which the source swallows (`pass`), leaving the file
    in place. -/
def safeCleanup (fs : List (String × String)) (tmp : String) (unlinkOk : Bool) :
    List (String × String) :=
  if fs.any (fun e => e.1 = tmp) then
    if unlinkOk then fs.filter (fun e => ¬ e.1 = tmp) else fs
  else fs

/-- The result assembly of the `completed` branch (code_executor.py lines
    212-226): success is a zero exit code, retracted when the in-sandbox
    exception marker appears on stdout; in that case, with empty stderr,
    the first marker line becomes the error text. -/
def completedResult (exitCode : Int) (stdout stderr : String) : ExecResultPy :=
  let success := exitCode = 0
  let errorOutput := stderr
  if strContains stdout "EXECUTION_ERROR:" then
    let errorLines := (pySplitOn stdout "\n").filter (fun l => strContains l "EXECUTION_ERROR:")
    match errorLines with
    | l :: _ =>
      if errorOutput = "" then
        { success := false, output := stdout,
          error := pyReplace l "EXECUTION_ERROR: " "", timeout := false }
      else
        { success := false, output := stdout, error := errorOutput, timeout := false }
    | [] => { success := false, output := stdout, error := errorOutput, timeout := false }
  else
    { success := success, output := stdout, error := errorOutput, timeout := false }

/-- `CodeExecutor._execute_code` (code_executor.py lines 188-243): write
    the wrapped snippet to a fresh temporary file, run it, build the result
    for each outcome, and in every branch run the `finally` cleanup, whose
    unlink either succeeds or raises a swallowed `OSError` (`unlinkOk`). -/
def executeCodeFS (timeoutSecs : Nat) (code : String) (fs : List (String × String))
    (tmpName : String) (outcome : RunOutcome) (unlinkOk : Bool) :
    ExecResultPy × List (String × String) :=
  let fs1 := fs ++ [(tmpName, safeWrap code)]
  let res :=
    match outcome with
    | .completed exitCode stdout stderr => completedResult exitCode stdout stderr
    | .timedOut =>
      { success := false, output := "",
        error := "Code execution timed out after " ++ toString timeoutSecs ++ " seconds",
        timeout := true }
    | .raised msg =>
      { success := false, output := "",
        error := "Subprocess execution error: " ++ msg, timeout := false }
  (res, safeCleanup fs1 tmpName unlinkOk)

/-! ## Intent classifiers (`scripts/intent_interpreter.py`)

The model call is an oracle `llm : String → Except String String` taking
the assembled prompt; `Except.error` is a raised exception. -/

/-- The prompt assembled by `IntentInterpreter.interpret` (lines 10-20). -/
def interpretPrompt (userInput : String) : String :=
  "Does this request need code execution?\n        Example: \n        -tell me what the current weather is in Foster city California -> Code\n        -How does the sun generate light -> Chat\n                       \n\nRequest: \"" ++ userInput ++ "\"\n\nRespond with only: \"code\" or \"chat\"\n\nResponse:"

/-- `IntentInterpreter.interpret` (intent_interpreter.py lines 8-32). -/
def interpret (llm : String → Except String String) (userInput : String) : String :=
  match llm (interpretPrompt userInput) with
  | .error _ => "chat"
  | .ok content =>
    if strContains (pyLower (pyStrip content)) "code" then "code" else "chat"

/-- The prompt assembled by `determine_execution_strategy` (lines 37-55). -/
def strategyPrompt (userRequest : String) : String :=
  "Analyze this request and determine the best execution strategy:\n\nRequest: \"" ++ userRequest ++ "\"\n\nSequential approach is needed when:\n- Multiple distinct steps that pass data between them\n- \"Search X and then Y\" patterns  \n- \"Get/fetch/find X and then create/analyze/process Y\"\n- External data gathering followed by processing\n\nUnified approach is needed when:\n- Single cohesive task (games, apps, tools)\n- Creative projects without external dependencies\n- Mathematical/computational problems\n- File processing or data analysis of provided data\n\nRespond with only: \"sequential\" or \"unified\"\n\nStrategy:"

/-- `IntentInterpreter.determine_execution_strategy` (lines 34-68). -/
def determineExecutionStrategy (llm : String → Except String String) (userRequest : String) : String :=
  match llm (strategyPrompt userRequest) with
  | .error _ => "unified"
  | .ok content =>
    if strContains (pyLower (pyStrip content)) "sequential" then "sequential" else "unified"

/-- `IntentInterpreter.handle_conversation` (lines 70-79). -/
def handleConversation (llm : String → Except String String) (userInput : String) : String :=
  match llm userInput with
  | .ok content => content
  | .error e => "Error: " ++ e

/-! ## Orchestrator (`AgenticExecutor`, main.py)

The remaining collaborator boundaries are oracles: `tasksO` is
`_break_down_request` (decomposition prompt, model call and
`JSONExtractor.extract_json`, with `[]` signalling the fallback), `mergeO`
is `CodeMerger.merge_code_blocks` (merge prompt, model call and
`CodeExtractor.extract_code`, with `""` for a failed merge), and
`finalExecO` is the direct `_execute_code` call of the final sequential
pass.  The trace components record every request string handed to
`_generate_code` and every snippet handed to `_execute_code`. -/

/-- The oracle bundle for one `AgenticExecutor`. -/
structure Oracles where
  intentLLM : String → Except String String
  strategyLLM : String → Except String String
  chatLLM : String → Except String String
  tasksO : String → List AgenticTask
  genO : String → String
  execO : Nat → String → ExecResultPy
  finalExecO : String → ExecResultPy
  fixO : String → String → Nat → List FixAttempt → String
  mergeO : List TaskResultE → String → String
  maxFixDepth : Nat

/-- The mutable fields of `AgenticExecutor` (`self.context`,
    `self.task_results`) together with its `CodeExecutor`'s session state. -/
structure AgentState where
  context : List (String × String)
  taskResults : List TaskResultE
  execState : ExecState

/-- The result dict returned by the orchestrator entry points; dict keys
    that a branch leaves out are `none` / defaults. -/
structure FinalResult where
  success : Bool
  message : String := ""
  error : String := ""
  rtype : String := "code"
  contextOut : Option (List (String × String)) := none
  finalCode : Option String := none
  output : Option String := none
deriving Repr

/-- `AgenticExecutor._generate_task_code` (main.py lines 289-312): build
    the per-task prompt, run `_generate_code`, fail on an empty reply.
    (`_generate_code` catches its own exceptions and returns `""`, so the
    outer `except` branch is unreachable.) -/
def generateTaskCode (genO : String → String) (t : AgenticTask) : Bool × String × String :=
  let codePrompt := buildTaskPrompt t
  let code := genO codePrompt
  if code = "" then (false, "", "Failed to generate code for task")
  else (true, code, "")

/-- `AgenticExecutor._finalize_sequential_execution` (main.py lines
    184-225).  Returns the result dict, the context store after the run,
    and the trace of snippets passed to `_execute_code`. -/
def finalizeSequential (mergeO : List TaskResultE → String → String)
    (finalExecO : String → ExecResultPy) (ctx : List (String × String))
    (taskResults : List TaskResultE) (userRequest : String) :
    FinalResult × List (String × String) × List String :=
  let successfulTasks := taskResults.filter (fun r => r.success)
  if successfulTasks.isEmpty then
    ({ success := false, error := "No tasks generated code successfully", rtype := "code" },
     ctx, [])
  else
    let finalCode := mergeO taskResults userRequest
    if finalCode = "" then
      ({ success := false, error := "Failed to merge code", rtype := "code" }, ctx, [])
    else
      let r := finalExecO finalCode
      if r.success then
        let ctx1 := extractContext ctx r.output
        ({ success := true,
           message := "Generated " ++ toString successfulTasks.length ++ " code blocks, merged and executed successfully",
           rtype := "code", contextOut := some ctx1, finalCode := some finalCode,
           output := some r.output }, ctx1, [finalCode])
      else
        ({ success := false, error := "Final code execution failed: " ++ r.error,
           rtype := "code", finalCode := some finalCode }, ctx, [finalCode])

/-- `AgenticExecutor._execute_unified` (main.py lines 132-145).  Returns
    the result dict, the updated state, the requests handed to
    `_generate_code`, and the snippets handed to `_execute_code`. -/
def executeUnified (o : Oracles) (st : AgentState) (userRequest : String) :
    FinalResult × AgentState × List String × List String :=
  let unifiedPrompt := createUnifiedPrompt st.context userRequest
  let (r, es, tr) := generateAndExecute o.genO o.execO o.fixO o.maxFixDepth unifiedPrompt st.execState
  if r.success then
    let ctx1 := extractContext st.context r.output
    ({ success := true, message := "Completed unified execution", rtype := "code",
       contextOut := some ctx1, finalCode := some r.code },
     { st with context := ctx1, execState := es }, [unifiedPrompt], tr.map (fun p => p.2))
  else
    ({ success := false, error := "Unified execution failed: " ++ r.error, rtype := "code" },
     { st with execState := es }, [unifiedPrompt], tr.map (fun p => p.2))

/-- The `TaskResult` records appended by the per-task loop of
    `_execute_sequential` (main.py lines 161-179): one record per task, in
    order, generation failures recorded and skipped over. -/
def taskResultsFor (genO : String → String) (tasks : List AgenticTask) : List TaskResultE :=
  tasks.map (fun t =>
    let (s, c, e) := generateTaskCode genO t
    ({ task := t, success := s, code := c, error := e } : TaskResultE))

/-- `AgenticExecutor._execute_sequential` (main.py lines 147-182): break
    the request down (empty list falls back to the unified path), generate
    code for every task without executing it, then finalize. -/
def executeSequential (o : Oracles) (st : AgentState) (userRequest : String) :
    FinalResult × AgentState × List String × List String :=
  let tasks := o.tasksO userRequest
  if tasks.isEmpty then executeUnified o st userRequest
  else
    let taskResults := taskResultsFor o.genO tasks
    let st1 := { st with taskResults := taskResults }
    let (res, ctx1, sandboxTrace) :=
      finalizeSequential o.mergeO o.finalExecO st1.context taskResults userRequest
    (res, { st1 with context := ctx1 }, tasks.map buildTaskPrompt, sandboxTrace)

/-- `AgenticExecutor.execute` (main.py lines 107-130): reset
    `self.task_results` (and nothing else), classify the intent, answer
    chat requests directly, otherwise pick the strategy and dispatch. -/
def execute (o : Oracles) (st : AgentState) (userRequest : String) :
    FinalResult × AgentState × List String × List String :=
  let st := { st with taskResults := [] }
  let intent := interpret o.intentLLM userRequest
  if intent = "chat" then
    ({ success := true, message := handleConversation o.chatLLM userRequest, rtype := "chat" },
     st, [], [])
  else
    let strategy := determineExecutionStrategy o.strategyLLM userRequest
    if strategy = "unified" then executeUnified o st userRequest
    else executeSequential o st userRequest

/-! ## Lemmas about the repair recursion -/

theorem handleMaxDepth_code (r : RunResult) (d m : Nat) :
    (handleMaxDepthReached r d m).code = r.code := by
  unfold handleMaxDepthReached; split <;> rfl

theorem handleMaxDepth_fixAttempts (r : RunResult) (d m : Nat) :
    (handleMaxDepthReached r d m).fixAttempts = r.fixAttempts := by
  unfold handleMaxDepthReached; split <;> rfl

theorem handleMaxDepth_timeout (r : RunResult) (d m : Nat) :
    (handleMaxDepthReached r d m).timeout = r.timeout := by
  unfold handleMaxDepthReached; split <;> rfl


theorem isDuplicateFix_true {f : String} {hh hs : List String}
    (h : isDuplicateFix f hh = (true, hs)) :
    hs = hh ∧ hh.contains (pyStrip f) = true := by
  unfold isDuplicateFix at h
  dsimp only at h
  split at h
  · exact ⟨(Prod.mk.injEq .. |>.mp h).2.symm, by assumption⟩
  · simp at h

theorem isDuplicateFix_false {f : String} {hh hs : List String}
    (h : isDuplicateFix f hh = (false, hs)) :
    hs = hh ++ [pyStrip f] ∧ hh.contains (pyStrip f) = false := by
  unfold isDuplicateFix at h
  dsimp only at h
  split at h
  · simp at h
  · refine ⟨(Prod.mk.injEq .. |>.mp h).2.symm, ?_⟩
    simp_all

theorem isValidFix_false {f c : String} {hh hs : List String}
    (h : isValidFix f c hh = (false, hs)) : hs = hh := by
  unfold isValidFix at h
  split at h
  · exact (Prod.mk.injEq .. |>.mp h).2.symm
  · rcases hdf : isDuplicateFix f hh with ⟨b, hs0⟩
    rw [hdf] at h
    cases b
    · simp at h
    · simp at h
      rw [← h]
      exact (isDuplicateFix_true hdf).1

theorem isValidFix_true {f c : String} {hh hs : List String}
    (h : isValidFix f c hh = (true, hs)) :
    hs = hh ++ [pyStrip f] ∧ hh.contains (pyStrip f) = false := by
  unfold isValidFix at h
  split at h
  · simp at h
  · rcases hdf : isDuplicateFix f hh with ⟨b, hs0⟩
    rw [hdf] at h
    cases b
    · simp at h
      rw [← h]
      exact isDuplicateFix_false hdf
    · simp at h

theorem recordFixAttempt_codeHashes (st : ExecState) (d : Nat) (a b c : String) :
    (recordFixAttempt st d a b c).codeHashes = st.codeHashes := rfl

/-- Every chain trace starts with the snippet and depth it was entered at. -/
theorem go_trace_head (execO : Nat → String → ExecResultPy)
    (fixO : String → String → Nat → List FixAttempt → String) (maxD : Nat)
    (fuel : Nat) (code : String) (depth : Nat) (st : ExecState) :
    ∃ rest, (executeWithRecursiveFixesGo execO fixO maxD fuel code depth st).2.2
      = (depth, code) :: rest := by
  cases fuel with
  | zero =>
    simp only [executeWithRecursiveFixesGo]
    by_cases hs : (execO depth code).success
    · exact ⟨[], by simp [hs]⟩
    · by_cases htm : (execO depth code).timeout <;> exact ⟨[], by simp [hs, htm]⟩
  | succ f =>
    simp only [executeWithRecursiveFixesGo]
    by_cases hs : (execO depth code).success
    · exact ⟨[], by simp [hs]⟩
    · by_cases htm : (execO depth code).timeout
      · exact ⟨[], by simp [hs, htm]⟩
      · rcases hvf : isValidFix (fixO code (execO depth code).error depth st.fixHistory) code st.codeHashes with ⟨b2, hs3⟩
        cases b2
        · exact ⟨[], by simp [hs, htm, hvf]⟩
        · refine ⟨(executeWithRecursiveFixesGo execO fixO maxD f
            (fixO code (execO depth code).error depth st.fixHistory) (depth + 1)
            (recordFixAttempt { st with codeHashes := hs3 } depth code
              (fixO code (execO depth code).error depth st.fixHistory) (execO depth code).error)).2.2, ?_⟩
          simp [hs, htm, hvf]

/-- The last execution of a repair chain is the one whose code and depth
    the returned result carries (`result.update({'code': code,
    'fix_attempts': depth})` happens on the snippet just run). -/
theorem go_trace_last (execO : Nat → String → ExecResultPy)
    (fixO : String → String → Nat → List FixAttempt → String) (maxD : Nat) :
    ∀ (fuel : Nat) (code : String) (depth : Nat) (st : ExecState),
    ∃ pre, (executeWithRecursiveFixesGo execO fixO maxD fuel code depth st).2.2
      = pre ++ [((executeWithRecursiveFixesGo execO fixO maxD fuel code depth st).1.fixAttempts,
                 (executeWithRecursiveFixesGo execO fixO maxD fuel code depth st).1.code)] := by
  intro fuel
  induction fuel with
  | zero =>
    intro code depth st
    simp only [executeWithRecursiveFixesGo]
    by_cases hs : (execO depth code).success
    · exact ⟨[], by simp [hs]⟩
    · by_cases htm : (execO depth code).timeout
      · refine ⟨[], ?_⟩
        simp [hs, htm, handleMaxDepth_code, handleMaxDepth_fixAttempts]
      · refine ⟨[], ?_⟩
        simp [hs, htm, handleMaxDepth_code, handleMaxDepth_fixAttempts]
  | succ f ih =>
    intro code depth st
    simp only [executeWithRecursiveFixesGo]
    by_cases hs : (execO depth code).success
    · exact ⟨[], by simp [hs]⟩
    · by_cases htm : (execO depth code).timeout
      · refine ⟨[], ?_⟩
        simp [hs, htm, handleMaxDepth_code, handleMaxDepth_fixAttempts]
      · rcases hvf : isValidFix (fixO code (execO depth code).error depth st.fixHistory) code st.codeHashes with ⟨b2, hs3⟩
        cases b2
        · refine ⟨[], ?_⟩
          simp [hs, htm, hvf]
        · obtain ⟨pre, hpre⟩ := ih (fixO code (execO depth code).error depth st.fixHistory) (depth + 1)
            (recordFixAttempt { st with codeHashes := hs3 } depth code
              (fixO code (execO depth code).error depth st.fixHistory) (execO depth code).error)
          refine ⟨(depth, code) :: pre, ?_⟩
          simp [hs, htm, hvf, hpre]

/-- The reported number of fix attempts never exceeds the entry depth plus
    the remaining fuel. -/
theorem go_fixAttempts_le (execO : Nat → String → ExecResultPy)
    (fixO : String → String → Nat → List FixAttempt → String) (maxD : Nat) :
    ∀ (fuel : Nat) (code : String) (depth : Nat) (st : ExecState),
    (executeWithRecursiveFixesGo execO fixO maxD fuel code depth st).1.fixAttempts ≤ depth + fuel := by
  intro fuel
  induction fuel with
  | zero =>
    intro code depth st
    simp only [executeWithRecursiveFixesGo]
    by_cases hs : (execO depth code).success
    · simp [hs]
    · by_cases htm : (execO depth code).timeout <;>
        simp [hs, htm, handleMaxDepth_fixAttempts]
  | succ f ih =>
    intro code depth st
    simp only [executeWithRecursiveFixesGo]
    by_cases hs : (execO depth code).success
    · simp [hs]
    · by_cases htm : (execO depth code).timeout
      · simp [hs, htm, handleMaxDepth_fixAttempts]
      · rcases hvf : isValidFix (fixO code (execO depth code).error depth st.fixHistory) code st.codeHashes with ⟨b2, hs3⟩
        cases b2
        · simp [hs, htm, hvf]
        · have := ih (fixO code (execO depth code).error depth st.fixHistory) (depth + 1)
            (recordFixAttempt { st with codeHashes := hs3 } depth code
              (fixO code (execO depth code).error depth st.fixHistory) (execO depth code).error)
          simp [hs, htm, hvf]
          omega

/-- The depths along a chain trace are consecutive, starting at the entry
    depth: each accepted repair raises the depth by exactly one. -/
theorem go_trace_depths (execO : Nat → String → ExecResultPy)
    (fixO : String → String → Nat → List FixAttempt → String) (maxD : Nat) :
    ∀ (fuel : Nat) (code : String) (depth : Nat) (st : ExecState),
    (executeWithRecursiveFixesGo execO fixO maxD fuel code depth st).2.2.map Prod.fst
      = List.range' depth (executeWithRecursiveFixesGo execO fixO maxD fuel code depth st).2.2.length := by
  intro fuel
  induction fuel with
  | zero =>
    intro code depth st
    simp only [executeWithRecursiveFixesGo]
    by_cases hs : (execO depth code).success
    · simp [hs, List.range'_succ]
    · by_cases htm : (execO depth code).timeout <;> simp [hs, htm, List.range'_succ]
  | succ f ih =>
    intro code depth st
    simp only [executeWithRecursiveFixesGo]
    by_cases hs : (execO depth code).success
    · simp [hs, List.range'_succ]
    · by_cases htm : (execO depth code).timeout
      · simp [hs, htm, List.range'_succ]
      · rcases hvf : isValidFix (fixO code (execO depth code).error depth st.fixHistory) code st.codeHashes with ⟨b2, hs3⟩
        cases b2
        · simp [hs, htm, hvf, List.range'_succ]
        · have := ih (fixO code (execO depth code).error depth st.fixHistory) (depth + 1)
            (recordFixAttempt { st with codeHashes := hs3 } depth code
              (fixO code (execO depth code).error depth st.fixHistory) (execO depth code).error)
          simp [hs, htm, hvf, List.range'_succ, this]

/-- A chain runs the sandbox at most `fuel + 1` times. -/
theorem go_trace_len_le (execO : Nat → String → ExecResultPy)
    (fixO : String → String → Nat → List FixAttempt → String) (maxD : Nat) :
    ∀ (fuel : Nat) (code : String) (depth : Nat) (st : ExecState),
    (executeWithRecursiveFixesGo execO fixO maxD fuel code depth st).2.2.length ≤ fuel + 1 := by
  intro fuel
  induction fuel with
  | zero =>
    intro code depth st
    simp only [executeWithRecursiveFixesGo]
    by_cases hs : (execO depth code).success
    · simp [hs]
    · by_cases htm : (execO depth code).timeout <;> simp [hs, htm]
  | succ f ih =>
    intro code depth st
    simp only [executeWithRecursiveFixesGo]
    by_cases hs : (execO depth code).success
    · simp [hs]
    · by_cases htm : (execO depth code).timeout
      · simp [hs, htm]
      · rcases hvf : isValidFix (fixO code (execO depth code).error depth st.fixHistory) code st.codeHashes with ⟨b2, hs3⟩
        cases b2
        · simp [hs, htm, hvf]
        · have := ih (fixO code (execO depth code).error depth st.fixHistory) (depth + 1)
            (recordFixAttempt { st with codeHashes := hs3 } depth code
              (fixO code (execO depth code).error depth st.fixHistory) (execO depth code).error)
          simp [hs, htm, hvf]
          omega

/-- Every revision accepted during a chain (every snippet in the trace
    after the first) had a stripped text that was absent from the hash set
    at entry. -/
theorem go_accepted_fresh (execO : Nat → String → ExecResultPy)
    (fixO : String → String → Nat → List FixAttempt → String) (maxD : Nat) :
    ∀ (fuel : Nat) (code : String) (depth : Nat) (st : ExecState),
    ∀ p ∈ (executeWithRecursiveFixesGo execO fixO maxD fuel code depth st).2.2.drop 1,
      pyStrip p.2 ∉ st.codeHashes := by
  intro fuel
  induction fuel with
  | zero =>
    intro code depth st p hp
    simp only [executeWithRecursiveFixesGo] at hp
    by_cases hs : (execO depth code).success
    · simp [hs] at hp
    · by_cases htm : (execO depth code).timeout <;> simp [hs, htm] at hp
  | succ f ih =>
    intro code depth st p hp
    simp only [executeWithRecursiveFixesGo] at hp
    by_cases hs : (execO depth code).success
    · simp [hs] at hp
    · by_cases htm : (execO depth code).timeout
      · simp [hs, htm] at hp
      · rcases hvf : isValidFix (fixO code (execO depth code).error depth st.fixHistory) code st.codeHashes with ⟨b2, hs3⟩
        cases b2
        · simp [hs, htm, hvf] at hp
        · rw [hvf] at hp
          simp only [hs, htm] at hp
          simp at hp
          set fixedCode := fixO code (execO depth code).error depth st.fixHistory with hfc
          set st1 := recordFixAttempt { st with codeHashes := hs3 } depth code fixedCode (execO depth code).error with hst1
          obtain ⟨tr1, htr1⟩ := go_trace_head execO fixO maxD f fixedCode (depth + 1) st1
          rw [htr1] at hp
          obtain ⟨hval, hcontains⟩ := isValidFix_true hvf
          rcases List.mem_cons.mp hp with hph | hpt
          · subst hph
            simpa using hcontains
          · have hfresh := ih fixedCode (depth + 1) st1 p (by rw [htr1]; simpa using hpt)
            have : st1.codeHashes = st.codeHashes ++ [pyStrip fixedCode] := by
              rw [hst1, recordFixAttempt_codeHashes]
              simpa using hval
            intro hmem
            exact hfresh (by rw [this]; exact List.mem_append_left _ hmem)

/-- No two accepted revisions within one chain have the same stripped
    text: the hash check inserts each accepted candidate before the next
    one is compared. -/
theorem go_accepted_nodup (execO : Nat → String → ExecResultPy)
    (fixO : String → String → Nat → List FixAttempt → String) (maxD : Nat) :
    ∀ (fuel : Nat) (code : String) (depth : Nat) (st : ExecState),
    (((executeWithRecursiveFixesGo execO fixO maxD fuel code depth st).2.2.drop 1).map
      (fun q => pyStrip q.2)).Nodup := by
  intro fuel
  induction fuel with
  | zero =>
    intro code depth st
    simp only [executeWithRecursiveFixesGo]
    by_cases hs : (execO depth code).success
    · simp [hs]
    · by_cases htm : (execO depth code).timeout <;> simp [hs, htm]
  | succ f ih =>
    intro code depth st
    simp only [executeWithRecursiveFixesGo]
    by_cases hs : (execO depth code).success
    · simp [hs]
    · by_cases htm : (execO depth code).timeout
      · simp [hs, htm]
      · rcases hvf : isValidFix (fixO code (execO depth code).error depth st.fixHistory) code st.codeHashes with ⟨b2, hs3⟩
        cases b2
        · simp [hs, htm, hvf]
        · simp only [hs, htm, hvf]
          simp
          set fixedCode := fixO code (execO depth code).error depth st.fixHistory with hfc
          set st1 := recordFixAttempt { st with codeHashes := hs3 } depth code fixedCode (execO depth code).error with hst1
          obtain ⟨tr1, htr1⟩ := go_trace_head execO fixO maxD f fixedCode (depth + 1) st1
          rw [htr1]
          simp only [List.map_cons, List.nodup_cons]
          obtain ⟨hval, hcontains⟩ := isValidFix_true hvf
          have hsub : st1.codeHashes = st.codeHashes ++ [pyStrip fixedCode] := by
            rw [hst1, recordFixAttempt_codeHashes]
            simpa using hval
          constructor
          · intro hmem
            obtain ⟨q, hq, hqeq⟩ := List.mem_map.mp hmem
            have hfresh := go_accepted_fresh execO fixO maxD f fixedCode (depth + 1) st1 q
              (by rw [htr1]; simpa using hq)
            exact hfresh (by rw [hsub]; rw [hqeq]; exact List.mem_append_right _ (by simp))
          · have := ih fixedCode (depth + 1) st1
            rw [htr1] at this
            simpa using this

theorem ewrf_zero (execO : Nat → String → ExecResultPy)
    (fixO : String → String → Nat → List FixAttempt → String)
    (maxD : Nat) (code : String) (st : ExecState) :
    executeWithRecursiveFixes execO fixO maxD code 0 st
      = executeWithRecursiveFixesGo execO fixO maxD maxD code 0 st := by
  unfold executeWithRecursiveFixes
  simp

/-- C2: on every return from `generate_and_execute` /
    `_execute_with_recursive_fixes`, the reported `fix_attempts` satisfies
    `0 ≤ depth ≤ max_fix_depth` (the lower bound is inherent to `Nat`), the
    chain starts at depth 0, and the execution depths along the chain are
    consecutive — each accepted repair increments the depth by exactly one. -/
theorem claim_c2_depth_bounded (genO : String → String)
    (execO : Nat → String → ExecResultPy)
    (fixO : String → String → Nat → List FixAttempt → String)
    (maxD : Nat) (req : String) (st : ExecState) :
    (generateAndExecute genO execO fixO maxD req st).1.fixAttempts ≤ maxD
    ∧ (generateAndExecute genO execO fixO maxD req st).2.2.map Prod.fst
        = List.range' 0 (generateAndExecute genO execO fixO maxD req st).2.2.length := by
  unfold generateAndExecute
  dsimp only
  split
  · simp
  · rw [ewrf_zero]
    refine ⟨?_, go_trace_depths execO fixO maxD maxD (genO req) 0 ⟨[], []⟩⟩
    have := go_fixAttempts_le execO fixO maxD maxD (genO req) 0 ⟨[], []⟩
    simpa using this

theorem go_timeout_halt (execO : Nat → String → ExecResultPy)
    (fixO : String → String → Nat → List FixAttempt → String)
    (maxD fuel : Nat) (code : String) (depth : Nat) (st : ExecState)
    (h : (execO depth code).timeout = true) :
    (executeWithRecursiveFixesGo execO fixO maxD fuel code depth st).2.1 = st
    ∧ (executeWithRecursiveFixesGo execO fixO maxD fuel code depth st).2.2 = [(depth, code)]
    ∧ (executeWithRecursiveFixesGo execO fixO maxD fuel code depth st).1.timeout = true
    ∧ (executeWithRecursiveFixesGo execO fixO maxD fuel code depth st).1.fixAttempts = depth
    ∧ (executeWithRecursiveFixesGo execO fixO maxD fuel code depth st).1.code = code := by
  cases fuel <;>
  · simp only [executeWithRecursiveFixesGo]
    by_cases hs : (execO depth code).success
    · simp [hs, h]
    · simp [hs, h, handleMaxDepth_timeout, handleMaxDepth_fixAttempts, handleMaxDepth_code]

theorem go_timeout_fix_irrel (execO : Nat → String → ExecResultPy)
    (fixO fixO' : String → String → Nat → List FixAttempt → String)
    (maxD fuel : Nat) (code : String) (depth : Nat) (st : ExecState)
    (h : (execO depth code).timeout = true) :
    executeWithRecursiveFixesGo execO fixO maxD fuel code depth st
      = executeWithRecursiveFixesGo execO fixO' maxD fuel code depth st := by
  cases fuel with
  | zero => simp only [executeWithRecursiveFixesGo]
  | succ f =>
    simp only [executeWithRecursiveFixesGo]
    by_cases hs : (execO depth code).success
    · simp [hs, h]
    · simp [hs, h]

/-- C3: a timed-out execution is terminal: whenever the run entered at any
    depth of the chain reports the timeout flag, the session state is
    unchanged (no `FixAttempt` is recorded), exactly that one execution
    happens, the timeout result itself (carrying that depth and the same
    code) is returned — regardless of the remaining depth budget — and the
    revision oracle is never consulted (the outcome is the same for every
    revision oracle). -/
theorem claim_c3_timeout_terminal (execO : Nat → String → ExecResultPy)
    (fixO fixO' : String → String → Nat → List FixAttempt → String)
    (maxD : Nat) (code : String) (depth : Nat) (st : ExecState)
    (h : (execO depth code).timeout = true) :
    (executeWithRecursiveFixes execO fixO maxD code depth st).2.1 = st
    ∧ (executeWithRecursiveFixes execO fixO maxD code depth st).2.2 = [(depth, code)]
    ∧ (executeWithRecursiveFixes execO fixO maxD code depth st).1.timeout = true
    ∧ (executeWithRecursiveFixes execO fixO maxD code depth st).1.fixAttempts = depth
    ∧ (executeWithRecursiveFixes execO fixO maxD code depth st).1.code = code
    ∧ executeWithRecursiveFixes execO fixO maxD code depth st
        = executeWithRecursiveFixes execO fixO' maxD code depth st := by
  unfold executeWithRecursiveFixes
  obtain ⟨h1, h2, h3, h4, h5⟩ := go_timeout_halt execO fixO maxD (maxD - depth) code depth st h
  exact ⟨h1, h2, h3, h4, h5, go_timeout_fix_irrel execO fixO fixO' maxD (maxD - depth) code depth st h⟩

/-- Witness for C3 at a concrete timed-out run. -/
theorem claim_c3_timeout_terminal_witness :
    ((fun (_ : Nat) (_ : String) =>
      ({ success := false, output := "", error := "Code execution timed out after 300000000 seconds", timeout := true } : ExecResultPy)) 0 "print(1)").timeout = true
    ∧ (executeWithRecursiveFixes
        (fun _ _ => { success := false, output := "", error := "Code execution timed out after 300000000 seconds", timeout := true })
        (fun _ _ _ _ => "fixed") 5 "print(1)" 0 ⟨[], []⟩).2.2 = [(0, "print(1)")] := by
  refine ⟨rfl, ?_⟩
  exact (claim_c3_timeout_terminal
    (fun _ _ => { success := false, output := "", error := "Code execution timed out after 300000000 seconds", timeout := true })
    (fun _ _ _ _ => "fixed") (fun _ _ _ _ => "other") 5 "print(1)" 0 ⟨[], []⟩ rfl).2.1

/-- C9: the recorded source always matches what ran.  Unified path: the
    trace of the repair chain ends exactly with the snippet (and depth)
    that the returned result records in its `code` / `fix_attempts`
    fields.  Sequential path: when the merge yields code, the one final
    sandbox pass runs exactly the merged program and the returned
    `final_code` is that same program. -/
theorem claim_c9_source_code_matches :
    (∀ (execO : Nat → String → ExecResultPy)
       (fixO : String → String → Nat → List FixAttempt → String)
       (maxD : Nat) (code : String) (depth : Nat) (st : ExecState),
      ∃ pre, (executeWithRecursiveFixes execO fixO maxD code depth st).2.2
        = pre ++ [((executeWithRecursiveFixes execO fixO maxD code depth st).1.fixAttempts,
                   (executeWithRecursiveFixes execO fixO maxD code depth st).1.code)])
    ∧ (∀ (mergeO : List TaskResultE → String → String)
         (finalExecO : String → ExecResultPy)
         (ctx : List (String × String)) (trs : List TaskResultE) (req : String),
        (trs.filter (fun r => r.success)).isEmpty = false →
        mergeO trs req ≠ "" →
        (finalizeSequential mergeO finalExecO ctx trs req).2.2 = [mergeO trs req]
        ∧ (finalizeSequential mergeO finalExecO ctx trs req).1.finalCode = some (mergeO trs req)) := by
  constructor
  · intro execO fixO maxD code depth st
    unfold executeWithRecursiveFixes
    exact go_trace_last execO fixO maxD (maxD - depth) code depth st
  · intro mergeO finalExecO ctx trs req hne hmerge
    unfold finalizeSequential
    simp only [hne, Bool.false_eq_true, if_false]
    rw [if_neg hmerge]
    split <;> simp

/-- Witness for C9 at a concrete merged program. -/
theorem claim_c9_source_code_matches_witness :
    (([({ task := ⟨"d", "g", []⟩, success := true, code := "print(1)", error := "" } : TaskResultE)].filter (fun r => r.success)).isEmpty = false)
    ∧ (finalizeSequential (fun _ _ => "print(2)") (fun _ => ⟨true, "", "", false⟩) []
        [({ task := ⟨"d", "g", []⟩, success := true, code := "print(1)", error := "" } : TaskResultE)] "req").2.2 = ["print(2)"] := by
  refine ⟨rfl, ?_⟩
  exact (claim_c9_source_code_matches.2 (fun _ _ => "print(2)") (fun _ => ⟨true, "", "", false⟩) []
    [({ task := ⟨"d", "g", []⟩, success := true, code := "print(1)", error := "" } : TaskResultE)] "req"
    rfl (by simp)).1

theorem isValidFix_of_bad {cand code : String} {hh : List String}
    (h : cand = "" ∨ cand = code ∨ hh.contains (pyStrip cand) = true) :
    isValidFix cand code hh = (false, hh) := by
  unfold isValidFix
  by_cases h0 : cand = "" ∨ cand = code
  · simp [h0]
  · simp only [h0, if_false]
    have hc : hh.contains (pyStrip cand) = true := by tauto
    unfold isDuplicateFix
    dsimp only
    have hred : (if hh.contains (pyStrip cand) = true then ((true, hh) : Bool × List String)
        else (false, hh ++ [pyStrip cand])) = (true, hh) := by simp [hc]; simpa using hc
    rw [hred]

/-- Counterexample machinery for C4: every execution fails, the revision
    oracle alternates between the snippets `"a"` and `"b"`. -/
def c4ExecO : Nat → String → ExecResultPy :=
  fun _ _ => { success := false, output := "", error := "NameError: name x is not defined", timeout := false }

def c4FixO : String → String → Nat → List FixAttempt → String :=
  fun code _ _ _ => if code = "a" then "b" else if code = "b" then "a" else ""

/-- C4 counterexample: starting from initial code `"a"`, the revision
    `"b"` is accepted at depth 0 and the revision `"a"` — byte- and
    hash-identical to the initial code tried at depth 0 — is accepted at
    depth 1 and executed again at depth 2, because `_is_duplicate_fix`
    never entered the initial code into the hash set.  The chain does not
    halt at that revision, refuting the claim that a revision
    hash-identical to any previously tried variant `including the initial
    code` is rejected. -/
theorem claim_c4_counterexample :
    (executeWithRecursiveFixes c4ExecO c4FixO 5 "a" 0 ⟨[], []⟩).2.2
      = [(0, "a"), (1, "b"), (2, "a")]
    ∧ (executeWithRecursiveFixes c4ExecO c4FixO 5 "a" 0 ⟨[], []⟩).1.fixAttempts = 2 := by
  constructor <;> rfl

/-- C4 (amended): within one repair chain, a candidate revision is
    rejected — the chain halts, the session's fix trail is unchanged, and
    the last result is returned annotated with the stop reason — whenever
    it is empty, textually identical to the code just tried, or
    content-hash-identical to a previously *checked* candidate revision of
    the session (the hash set holds the candidates that passed the first
    two checks, i.e. the accepted revisions; the initial code is never
    entered into it).  Consequently no two accepted revisions in one chain
    are hash-identical, and every chain performs at most
    `maxFixDepth - depth + 1` executions — it never loops forever. -/
theorem claim_c4_amended (execO : Nat → String → ExecResultPy)
    (fixO : String → String → Nat → List FixAttempt → String)
    (maxD : Nat) (code : String) (depth : Nat) (st : ExecState) :
    ((execO depth code).success = false →
     (execO depth code).timeout = false →
     depth < maxD →
     (fixO code (execO depth code).error depth st.fixHistory = ""
       ∨ fixO code (execO depth code).error depth st.fixHistory = code
       ∨ st.codeHashes.contains (pyStrip (fixO code (execO depth code).error depth st.fixHistory)) = true) →
     (executeWithRecursiveFixes execO fixO maxD code depth st).2.2 = [(depth, code)]
     ∧ (executeWithRecursiveFixes execO fixO maxD code depth st).1.fixAttempts = depth
     ∧ (executeWithRecursiveFixes execO fixO maxD code depth st).2.1.fixHistory = st.fixHistory
     ∧ (executeWithRecursiveFixes execO fixO maxD code depth st).1.error
         = (execO depth code).error ++ "\n\nRecursive fixing stopped at depth " ++ toString depth ++ " - no improvement found")
    ∧ (((executeWithRecursiveFixes execO fixO maxD code depth st).2.2.drop 1).map
        (fun q => pyStrip q.2)).Nodup
    ∧ (executeWithRecursiveFixes execO fixO maxD code depth st).2.2.length ≤ (maxD - depth) + 1 := by
  refine ⟨?_, ?_, ?_⟩
  · intro hs ht hd hbad
    unfold executeWithRecursiveFixes
    obtain ⟨k, hk⟩ : ∃ k, maxD - depth = k + 1 := ⟨maxD - depth - 1, by omega⟩
    rw [hk]
    simp only [executeWithRecursiveFixesGo]
    rw [isValidFix_of_bad hbad]
    simp [hs, ht]
  · exact go_accepted_nodup execO fixO maxD (maxD - depth) code depth st
  · exact go_trace_len_le execO fixO maxD (maxD - depth) code depth st

/-- Witness for C4 (amended): a concrete chain whose first revision is
    empty halts immediately with the stop annotation. -/
theorem claim_c4_amended_witness :
    (executeWithRecursiveFixes (fun _ _ => ⟨false, "", "err", false⟩)
        (fun _ _ _ _ => "") 5 "print(x)" 0 ⟨[], []⟩).2.2 = [(0, "print(x)")]
    ∧ (executeWithRecursiveFixes (fun _ _ => ⟨false, "", "err", false⟩)
        (fun _ _ _ _ => "") 5 "print(x)" 0 ⟨[], []⟩).1.error
        = "err" ++ "\n\nRecursive fixing stopped at depth " ++ toString 0 ++ " - no improvement found"
    ∧ (executeWithRecursiveFixes (fun _ _ => ⟨false, "", "err", false⟩)
        (fun _ _ _ _ => "") 5 "print(x)" 0 ⟨[], []⟩).2.2.length ≤ (5 - 0) + 1 := by
  have h := claim_c4_amended (fun _ _ => ⟨false, "", "err", false⟩)
    (fun _ _ _ _ => "") 5 "print(x)" 0 ⟨[], []⟩
  obtain ⟨h1, _, h3⟩ := h
  obtain ⟨ha, _, _, hb⟩ := h1 rfl rfl (by omega) (Or.inl rfl)
  exact ⟨ha, hb, h3⟩

/-- C7: a failed merge is fatal and nothing unmerged is ever executed.
    When the decomposition produced tasks, at least one generated code, and
    the Code Merger yields the empty result, the sequential request
    returns `success = false` with the merge-failure error and the sandbox
    trace is empty: `_execute_code` was invoked neither on the empty merge
    result nor on any individual task fragment (the per-task loop only
    generates code and never executes it). -/
theorem claim_c7_merge_failure_fatal (o : Oracles) (st : AgentState) (req : String)
    (htasks : (o.tasksO req).isEmpty = false)
    (hsucc : ((taskResultsFor o.genO (o.tasksO req)).filter (fun r => r.success)).isEmpty = false)
    (hmerge : o.mergeO (taskResultsFor o.genO (o.tasksO req)) req = "") :
    (executeSequential o st req).1.success = false
    ∧ (executeSequential o st req).1.error = "Failed to merge code"
    ∧ (executeSequential o st req).2.2.2 = [] := by
  unfold executeSequential
  simp only [htasks, Bool.false_eq_true, if_false]
  unfold finalizeSequential
  simp only [hsucc, Bool.false_eq_true, if_false]
  rw [if_pos hmerge]
  simp

/-- Witness for C7: one task that generates code, a merger that fails. -/
def c7Oracles : Oracles where
  intentLLM := fun _ => .ok "code"
  strategyLLM := fun _ => .ok "sequential"
  chatLLM := fun _ => .ok ""
  tasksO := fun _ => [⟨"fetch data", "fetch the data", []⟩]
  genO := fun _ => "print(1)"
  execO := fun _ _ => ⟨true, "", "", false⟩
  finalExecO := fun _ => ⟨true, "", "", false⟩
  fixO := fun _ _ _ _ => ""
  mergeO := fun _ _ => ""
  maxFixDepth := 5

theorem claim_c7_merge_failure_fatal_witness :
    (c7Oracles.tasksO "req").isEmpty = false
    ∧ (executeSequential c7Oracles ⟨[], [], ⟨[], []⟩⟩ "req").1.success = false
    ∧ (executeSequential c7Oracles ⟨[], [], ⟨[], []⟩⟩ "req").1.error = "Failed to merge code"
    ∧ (executeSequential c7Oracles ⟨[], [], ⟨[], []⟩⟩ "req").2.2.2 = [] := by
  refine ⟨rfl, ?_⟩
  exact claim_c7_merge_failure_fatal c7Oracles ⟨[], [], ⟨[], []⟩⟩ "req" rfl rfl rfl

/-- C8 counterexample: when the `os.unlink` of the `finally` cleanup
    raises `OSError`, `_safe_cleanup` swallows it (`except OSError: pass`)
    and the temporary source file survives `_execute_code` — here even on
    a normally completed, successful run — refuting `after _execute_code
    returns ... the temporary artifact no longer exists` on every exit
    path. -/
theorem claim_c8_counterexample :
    (executeCodeFS 30 "print(1)" [] "tmp_abc.py" (.completed 0 "ok\n" "") false).2
      = [("tmp_abc.py", safeWrap "print(1)")]
    ∧ ((executeCodeFS 30 "print(1)" [] "tmp_abc.py" (.completed 0 "ok\n" "") false).2.any
        (fun e => e.1 = "tmp_abc.py")) = true := ⟨rfl, rfl⟩

/-- C8 (amended): every exit path of a run — normal completion with any
    exit code, wall-clock timeout, and any exception raised while spawning
    or running the subprocess — reaches the `finally` cleanup of the
    temporary source file, and after `_execute_code` finishes no
    file-system entry with the temporary name remains whenever the
    `os.unlink` call succeeds; a failing unlink raises `OSError`, which is
    swallowed, and the artifact then persists, so removal is guaranteed
    only up to the operating system honouring the unlink. -/
theorem claim_c8_amended (timeoutSecs : Nat) (code : String)
    (fs : List (String × String)) (tmpName : String) :
    (∀ (outcome : RunOutcome) (unlinkOk : Bool),
      (executeCodeFS timeoutSecs code fs tmpName outcome unlinkOk).2
        = safeCleanup (fs ++ [(tmpName, safeWrap code)]) tmpName unlinkOk)
    ∧ (∀ outcome : RunOutcome,
      ((executeCodeFS timeoutSecs code fs tmpName outcome true).2.all
        (fun e => ¬ e.1 = tmpName)) = true) := by
  have hclean : ∀ fs1 : List (String × String),
      ((safeCleanup fs1 tmpName true).all (fun e => ¬ e.1 = tmpName)) = true := by
    intro fs1
    unfold safeCleanup
    split
    · rw [if_pos rfl]
      simp only [List.all_eq_true, List.mem_filter, decide_eq_true_eq]
      intro e hmem
      exact hmem.2
    · next hany =>
      simp only [List.any_eq_true, decide_eq_true_eq] at hany
      push_neg at hany
      simp only [List.all_eq_true, decide_eq_true_eq]
      intro e hmem
      exact hany e hmem
  constructor
  · intro outcome unlinkOk
    cases outcome <;> rfl
  · intro outcome
    unfold executeCodeFS
    cases outcome <;> exact hclean (fs ++ [(tmpName, safeWrap code)])

/-- C10: the classifiers are total at the public interface — for every
    oracle and input, `interpret` returns exactly `"code"` or `"chat"` and
    `determine_execution_strategy` returns exactly `"sequential"` or
    `"unified"`; and when the language-model call raises, the exception
    never propagates: the defaults `"chat"` and `"unified"` are returned,
    silently downgrading the request. -/
theorem claim_c10_classifier_totality :
    (∀ (llm : String → Except String String) (input : String),
      interpret llm input = "code" ∨ interpret llm input = "chat")
    ∧ (∀ (llm : String → Except String String) (input : String),
      determineExecutionStrategy llm input = "sequential"
      ∨ determineExecutionStrategy llm input = "unified")
    ∧ (∀ (llm : String → Except String String) (input : String) (e : String),
      llm (interpretPrompt input) = .error e → interpret llm input = "chat")
    ∧ (∀ (llm : String → Except String String) (input : String) (e : String),
      llm (strategyPrompt input) = .error e →
        determineExecutionStrategy llm input = "unified") := by
  refine ⟨?_, ?_, ?_, ?_⟩
  · intro llm input
    unfold interpret
    rcases llm (interpretPrompt input) with e | c
    · right; rfl
    · by_cases h : strContains (pyLower (pyStrip c)) "code" = true
      · left; simp [h]
      · right; simp [h]
  · intro llm input
    unfold determineExecutionStrategy
    rcases llm (strategyPrompt input) with e | c
    · right; rfl
    · by_cases h : strContains (pyLower (pyStrip c)) "sequential" = true
      · left; simp [h]
      · right; simp [h]
  · intro llm input e h
    unfold interpret
    rw [h]
  · intro llm input e h
    unfold determineExecutionStrategy
    rw [h]

/-- Witness for C10 with a collaborator that always raises. -/
theorem claim_c10_classifier_totality_witness :
    ((fun _ : String => (Except.error "connection refused" : Except String String)) (interpretPrompt "plot data") = .error "connection refused")
    ∧ interpret (fun _ => .error "connection refused") "plot data" = "chat"
    ∧ determineExecutionStrategy (fun _ => .error "connection refused") "plot data" = "unified" := by
  refine ⟨rfl, ?_, ?_⟩
  · exact claim_c10_classifier_totality.2.2.1 (fun _ => .error "connection refused")
      "plot data" "connection refused" rfl
  · exact claim_c10_classifier_totality.2.2.2 (fun _ => .error "connection refused")
      "plot data" "connection refused" rfl

/-- C5 counterexample: applied to the array text without the fences (and to
    the trailing-comma variant), `extract_json` does not return a
    one-element list.  The fenced strategies find no backtick, and
    `_extract_from_brackets` then tries the brace pair before the bracket
    pair, so the first balanced `{...}` span wins and `json.loads` returns
    the single record object itself — not the asserted one-element list. -/
theorem claim_c5_counterexample :
    extract_json c5Plain = some (.jobj [("description", .jstr "a"), ("goal", .jstr "b")])
    ∧ extract_json c5Plain
        ≠ some (.jarr [.jobj [("description", .jstr "a"), ("goal", .jstr "b")]])
    ∧ extract_json c5Trailing
        ≠ some (.jarr [.jobj [("description", .jstr "a"), ("goal", .jstr "b")]]) := by
  have h1 : extract_json c5Plain
      = some (.jobj [("description", .jstr "a"), ("goal", .jstr "b")]) := rfl
  have h2 : extract_json c5Trailing
      = some (.jobj [("description", .jstr "a"), ("goal", .jstr "b")]) := rfl
  refine ⟨h1, ?_, ?_⟩
  · intro h
    rw [h1] at h
    exact JVal.noConfusion (Option.some.injEq .. |>.mp h)
  · intro h
    rw [h2] at h
    exact JVal.noConfusion (Option.some.injEq .. |>.mp h)

/-- C5 (amended): the fenced input round-trips to the one-element list
    whose record has description `"a"` and goal `"b"`; the same array
    without fences, and the variant with a trailing comma before the
    closing bracket, are both tolerated but instead yield the single
    record object itself with those fields, not wrapped in a list. -/
theorem claim_c5_amended :
    extract_json c5Fenced
      = some (.jarr [.jobj [("description", .jstr "a"), ("goal", .jstr "b")]])
    ∧ extract_json c5Plain
      = some (.jobj [("description", .jstr "a"), ("goal", .jstr "b")])
    ∧ extract_json c5Trailing
      = some (.jobj [("description", .jstr "a"), ("goal", .jstr "b")]) :=
  ⟨rfl, rfl, rfl⟩

theorem contextCodeAux_acc (l : List (String × String)) :
    ∀ acc : String, contextCodeAux acc l = acc ++ contextCodeAux "" l := by
  induction l with
  | nil =>
    intro acc
    simp [contextCodeAux]
  | cons p ps ih =>
    intro acc
    simp only [contextCodeAux]
    rw [ih (acc ++ p.1 ++ " = \"\"\"" ++ p.2 ++ "\"\"\"\n"),
        ih ("" ++ p.1 ++ " = \"\"\"" ++ p.2 ++ "\"\"\"\n")]
    simp [String.append_assoc]

theorem contextCode_mem (ctx : List (String × String)) (n v : String)
    (h : (n, v) ∈ ctx) :
    ∃ pre post : String, contextCodeAux "" ctx
      = pre ++ (n ++ " = \"\"\"" ++ v ++ "\"\"\"\n") ++ post := by
  induction ctx with
  | nil => simp at h
  | cons p ps ih =>
    rcases List.mem_cons.mp h with hp | hp
    · refine ⟨"", contextCodeAux "" ps, ?_⟩
      simp only [contextCodeAux]
      rw [contextCodeAux_acc ps]
      subst hp
      simp [String.append_assoc]
    · obtain ⟨pre, post, hpp⟩ := ih hp
      refine ⟨"" ++ p.1 ++ " = \"\"\"" ++ p.2 ++ "\"\"\"\n" ++ pre, post, ?_⟩
      simp only [contextCodeAux]
      rw [contextCodeAux_acc ps, hpp]
      simp [String.append_assoc]

/-- Counterexample tasks and oracles for C1: the second task declares a
    dependency on `price` while the context store holds `price = 100`. -/
def c1DependentTask : AgenticTask :=
  { description := "Use the fetched price", goal := "compute the total cost",
    contextVariables := ["price"] }

def c1Oracles : Oracles where
  intentLLM := fun _ => .ok "code"
  strategyLLM := fun _ => .ok "sequential"
  chatLLM := fun _ => .ok ""
  tasksO := fun _ => [{ description := "Fetch the price", goal := "fetch the price", contextVariables := [] }, c1DependentTask]
  genO := fun _ => "print(1)"
  execO := fun _ _ => ⟨true, "", "", false⟩
  finalExecO := fun _ => ⟨true, "", "", false⟩
  fixO := fun _ _ _ _ => ""
  mergeO := fun _ _ => "print(2)"
  maxFixDepth := 5

set_option maxRecDepth 16384 in
/-- C1 counterexample: in the sequential strategy, with the context store
    holding `price = 100` and a later task declaring `dependsOn =
    ["price"]`, the synthesis request built for that task is
    `buildTaskPrompt c1DependentTask`, which contains neither the literal
    value `100` nor any binding of the name `price`: `_build_task_prompt`
    embeds only the task goal and fixed instruction text, ignoring both
    `task.context_variables` and the context store. -/
theorem claim_c1_counterexample :
    (executeSequential c1Oracles ⟨[("price", "100")], [], ⟨[], []⟩⟩ "get the price and compute the total").2.2.1
      = [buildTaskPrompt { description := "Fetch the price", goal := "fetch the price", contextVariables := [] },
         buildTaskPrompt c1DependentTask]
    ∧ strContains (buildTaskPrompt c1DependentTask) "100" = false
    ∧ strContains (buildTaskPrompt c1DependentTask) "price" = false := by
  refine ⟨rfl, ?_, ?_⟩ <;> rfl

/-- C1 (amended): the sequential per-task synthesis request depends only
    on the task goal — neither the declared dependency names nor any
    stored context value is inlined into it; inlined assignments
    `name = """value"""` for every available context variable appear only
    in the unified prompt built by `_create_unified_prompt`. -/
theorem claim_c1_amended :
    (∀ t t' : AgenticTask, t.goal = t'.goal → buildTaskPrompt t = buildTaskPrompt t')
    ∧ (∀ (ctx : List (String × String)) (n v req : String), (n, v) ∈ ctx →
        ∃ pre post : String, createUnifiedPrompt ctx req
          = pre ++ (n ++ " = \"\"\"" ++ v ++ "\"\"\"\n") ++ post) := by
  constructor
  · intro t t' h
    unfold buildTaskPrompt
    rw [h]
  · intro ctx n v req hmem
    obtain ⟨pre, post, hpp⟩ := contextCode_mem ctx n v hmem
    unfold createUnifiedPrompt
    rw [hpp]
    exact ⟨pre, post ++ "\n# Complete Request: " ++ req ++ "\n\n# Instructions:\n# - This is a unified task - handle the COMPLETE request in one comprehensive solution\n# - Write a single, cohesive program that accomplishes everything requested\n# - Think through all requirements and implement them together\n# - Include all necessary imports at the top\n# - Store any important final results as variables and print them as:\n#   print(f\"RESULT: variable_name = \x7bvariable_name\x7d\")\n# - Write clean, working Python code that fully satisfies the request\n\n# Your comprehensive solution:", by simp [String.append_assoc]⟩

/-- Witness for C1 (amended) at the context store `price = 100`. -/
theorem claim_c1_amended_witness :
    (("price", "100") ∈ [("price", "100")])
    ∧ (∃ pre post : String, createUnifiedPrompt [("price", "100")] "compute the total"
        = pre ++ ("price" ++ " = \"\"\"" ++ "100" ++ "\"\"\"\n") ++ post)
    ∧ buildTaskPrompt { description := "a", goal := "g", contextVariables := ["price"] }
      = buildTaskPrompt { description := "b", goal := "g", contextVariables := [] } := by
  refine ⟨by simp, ?_, ?_⟩
  · exact claim_c1_amended.2 [("price", "100")] "price" "100" "compute the total" (by simp)
  · exact claim_c1_amended.1 _ _ rfl

/-- Oracles for the C6 counterexample: every request classifies as a
    unified code request, and the sandbox run prints a result marker. -/
def c6Oracles : Oracles where
  intentLLM := fun _ => .ok "code"
  strategyLLM := fun _ => .ok "unified"
  chatLLM := fun _ => .ok ""
  tasksO := fun _ => []
  genO := fun _ => "print(1)"
  execO := fun _ _ => ⟨true, "RESULT: price = 100\n", "", false⟩
  finalExecO := fun _ => ⟨true, "", "", false⟩
  fixO := fun _ _ _ _ => ""
  mergeO := fun _ _ => ""
  maxFixDepth := 5

set_option maxRecDepth 65536 in
/-- C6 counterexample: `execute` resets only `self.task_results`;
    `self.context` is created once in `__init__` and never cleared, so the
    variable `price = 100` stored while serving the first request is still
    in the store when the second request starts, and is inlined into the
    second request's unified prompt. -/
theorem claim_c6_counterexample :
    (execute c6Oracles ⟨[], [], ⟨[], []⟩⟩ "fetch the price").2.1.context
      = [("price", "100")]
    ∧ (execute c6Oracles (execute c6Oracles ⟨[], [], ⟨[], []⟩⟩ "fetch the price").2.1
        "make a poem about it").2.2.1
      = [createUnifiedPrompt [("price", "100")] "make a poem about it"]
    ∧ strContains (createUnifiedPrompt [("price", "100")] "make a poem about it")
        "price = \"\"\"100\"\"\"" = true := by
  refine ⟨rfl, rfl, rfl⟩

/-- C6 (amended): per-request resets are partial.  `self.task_results` is
    reset at the start of every `execute` (the outcome is insensitive to
    the task results carried in), and the Repair Controller's fix trail
    and hash set are reset at the start of every `generate_and_execute`
    (the outcome is insensitive to the session state carried in); but the
    context store persists across top-level requests: a unified request
    always builds its prompt from the context carried over in the
    executor's state, so variables stored by an earlier request are
    inlined into later requests' prompts. -/
theorem claim_c6_amended :
    (∀ (o : Oracles) (st : AgentState) (req : String),
      execute o st req = execute o ⟨st.context, [], st.execState⟩ req)
    ∧ (∀ (genO : String → String) (execO : Nat → String → ExecResultPy)
         (fixO : String → String → Nat → List FixAttempt → String)
         (maxD : Nat) (req : String) (st st' : ExecState),
      generateAndExecute genO execO fixO maxD req st
        = generateAndExecute genO execO fixO maxD req st')
    ∧ (∀ (o : Oracles) (st : AgentState) (req : String),
      interpret o.intentLLM req = "code" →
      determineExecutionStrategy o.strategyLLM req = "unified" →
      (execute o st req).2.2.1 = [createUnifiedPrompt st.context req]) := by
  refine ⟨?_, ?_, ?_⟩
  · intro o st req
    rfl
  · intro genO execO fixO maxD req st st'
    rfl
  · intro o st req hintent hstrat
    unfold execute
    rw [hintent]
    rw [if_neg (by decide : ¬ ("code" : String) = "chat")]
    rw [hstrat, if_pos rfl]
    unfold executeUnified
    dsimp only
    split <;> rfl

/-- Witness for C6 (amended): the persistence conjunct at the oracles of
    the counterexample and a non-empty carried-over context. -/
theorem claim_c6_amended_witness :
    interpret c6Oracles.intentLLM "make a poem about it" = "code"
    ∧ (execute c6Oracles ⟨[("price", "100")], [], ⟨[], []⟩⟩ "make a poem about it").2.2.1
        = [createUnifiedPrompt [("price", "100")] "make a poem about it"] := by
  refine ⟨rfl, ?_⟩
  exact claim_c6_amended.2.2 c6Oracles ⟨[("price", "100")], [], ⟨[], []⟩⟩
    "make a poem about it" rfl rfl
